import Mathlib

/-!
Verification of the giveaway ("scheduled event") subsystem of the bot,
a shallow embedding of `cogs/giveaway.py` over explicit database states.

The SQLite tables `giveaways`, `giveaway_entries` and `users` become lists
of structures; each `aiosqlite` statement becomes a pure list operation; the
Discord side effects (channel lookup, message fetch, message edit, channel
send) are driven by a boolean environment, and the participant-visible
operations a finalization performs are recorded as a trace of `FinOp`s.
`random.sample` is an arbitrary function argument; theorems that need its
contract (k distinct elements of the population) take it as a hypothesis.
-/

namespace GiveawayBot

/-- A row of the `users` table (`database.py`, `init_db`), restricted to the
two columns the join handler reads: `messages` and `level`. -/
structure UserRow where
  userId : Nat
  messages : Nat
  level : Nat
deriving DecidableEq

/-- A row of the `giveaway_entries` table: `UNIQUE(giveaway_id, user_id)`,
`won INTEGER DEFAULT 0`. -/
structure Entry where
  giveawayId : Nat
  userId : Nat
  won : Bool
deriving DecidableEq

/-- A row of the `giveaways` table (`_ensure_db_and_restore` schema). -/
structure Giveaway where
  id : Nat
  guildId : Nat
  channelId : Nat
  messageId : Option Nat
  title : String
  prize : String
  winnerCount : Nat
  minMessages : Nat
  minLevel : Nat
  startTime : Nat
  endTime : Nat
  active : Bool
deriving DecidableEq

/-- The persistent database state.  `nextGiveawayId` models the
`AUTOINCREMENT` primary key counter of the `giveaways` table. -/
structure DBState where
  giveaways : List Giveaway
  entries : List Entry
  users : List UserRow
  nextGiveawayId : Nat
deriving DecidableEq

/-- Outcome of a click on the join button (`PersistentGiveawayView.join_button`).
Each constructor stands for one of the ephemeral replies the handler sends;
`joined` is the "You have joined the giveaway" acknowledgement, which the code
sends both for a fresh insert and for a duplicate (`INSERT OR IGNORE`). -/
inductive JoinResult where
  | inactive
  | noStats
  | needMessages
  | needLevel
  | joined
deriving DecidableEq

/-- `PersistentGiveawayView.join_button`: validate the giveaway is still
active, read the clicking user's stats fresh from the `users` table, compare
against the view's thresholds, and `INSERT OR IGNORE` an entry row. -/
def join_button (minMsgs minLvl : Nat) (st : DBState) (gid uid : Nat) :
    JoinResult × DBState :=
  match st.giveaways.find? (fun g => g.id == gid) with
  | none => (JoinResult.inactive, st)
  | some g =>
    if g.active = false then (JoinResult.inactive, st)
    else
      match st.users.find? (fun u => u.userId == uid) with
      | none => (JoinResult.noStats, st)
      | some u =>
        if u.messages < minMsgs then (JoinResult.needMessages, st)
        else if u.level < minLvl then (JoinResult.needLevel, st)
        else
          (JoinResult.joined,
           { st with entries :=
              if st.entries.any (fun e => e.giveawayId == gid && e.userId == uid)
              then st.entries
              else st.entries ++ [⟨gid, uid, false⟩] })

/-- ASCII whitespace as Python's `str.strip` removes around an `int()` literal. -/
def isPySpace (c : Char) : Bool :=
  c = ' ' || c = '\t' || c = '\n' || c = '\x0d' || c = '\x0b' || c = '\x0c'

/-- Digit run of a Python integer literal: digits with single underscores
allowed between two digits (`int("1_0") = 10`, `int("1__0")` fails). -/
def pyDigits : Nat → List Char → Option Nat
  | acc, [] => some acc
  | acc, c :: rest =>
    if c.isDigit then pyDigits (acc * 10 + (c.toNat - 48)) rest
    else if c = '_' then
      match rest with
      | [] => none
      | d :: rest2 =>
        if d.isDigit then pyDigits (acc * 10 + (d.toNat - 48)) rest2 else none
    else none

/-- Python's `int(s)` on a character list: strip whitespace, optional sign,
then a non-empty digit run (with underscore grouping). -/
def pyInt (cs : List Char) : Option Int :=
  let cs := (cs.dropWhile isPySpace).reverse.dropWhile isPySpace |>.reverse
  match cs with
  | '+' :: d :: rest =>
    if d.isDigit then (pyDigits 0 (d :: rest)).map Int.ofNat else none
  | '-' :: d :: rest =>
    if d.isDigit then (pyDigits 0 (d :: rest)).map (fun n => -(n : Int)) else none
  | d :: rest =>
    if d.isDigit then (pyDigits 0 (d :: rest)).map Int.ofNat else none
  | [] => none

/-- `GiveawayCog._parse_duration`: reject strings shorter than two characters,
lower-case the last character as the unit, `int()` the rest, multiply by the
unit's seconds.  Only a single trailing unit is understood. -/
def parse_duration (s : String) : Option Int :=
  if s.data.length < 2 then none
  else
    match s.data.getLast? with
    | none => none
    | some c =>
      let unit := c.toLower
      match pyInt s.data.dropLast with
      | none => none
      | some n =>
        if unit = 'm' then some (n * 60)
        else if unit = 'h' then some (n * 3600)
        else if unit = 'd' then some (n * 86400)
        else none

/-- One participant-visible operation a finalization performs, in program
order: marking a winner's entry row `won=1`, flipping the giveaway's `active`
flag to `0`, editing the original public post to its ENDED state, posting the
winners announcement, deleting the giveaway's entry rows. -/
inductive FinOp where
  | markWinner (uid : Nat)
  | setInactive
  | editEnded
  | announce (winners : List Nat)
  | purge
deriving DecidableEq

/-- Outcome of each Discord call `_finalize_giveaway` makes: `chanOk` is
`bot.get_channel` returning a channel, `msgOk` a successful `fetch_message`,
`editOk` a successful `message.edit`, `sendOk` a successful `channel.send`.
A `false` for `editOk`/`sendOk` means the awaited call raised. -/
structure FinalizeEnv where
  chanOk : Bool
  msgOk : Bool
  editOk : Bool
  sendOk : Bool
deriving DecidableEq

/-- `SELECT user_id FROM giveaway_entries WHERE giveaway_id=? AND won=0`. -/
def neverWonIds (entries : List Entry) (gid : Nat) : List Nat :=
  (entries.filter (fun e => e.giveawayId == gid && e.won == false)).map (·.userId)

/-- `SELECT user_id FROM giveaway_entries WHERE giveaway_id=?`. -/
def allParticipantIds (entries : List Entry) (gid : Nat) : List Nat :=
  (entries.filter (fun e => e.giveawayId == gid)).map (·.userId)

/-- The population `random.sample` draws from, per `_finalize_giveaway`
lines 300-307 and `giveaway_reroll` lines 599-604: the never-won entries,
falling back to all entries only when no never-won entry is left. -/
def winnerPool (entries : List Entry) (gid : Nat) : List Nat :=
  let eligible := neverWonIds entries gid
  if eligible.isEmpty then allParticipantIds entries gid else eligible

/-- `winners = random.sample(eligible, min(int(winner_count), len(eligible)))`,
with the sampling function left abstract. -/
def selectWinners (sample : List Nat → Nat → List Nat) (entries : List Entry)
    (gid wc : Nat) : List Nat :=
  sample (winnerPool entries gid) (min wc (winnerPool entries gid).length)

/-- `UPDATE giveaway_entries SET won=1 WHERE giveaway_id=? AND user_id=?`
for each selected winner. -/
def markWon (entries : List Entry) (gid : Nat) (winners : List Nat) : List Entry :=
  entries.map (fun e =>
    if e.giveawayId == gid && winners.contains e.userId then { e with won := true } else e)

/-- `UPDATE giveaways SET active=0 WHERE id=?`. -/
def deactivate (gs : List Giveaway) (gid : Nat) : List Giveaway :=
  gs.map (fun g => if g.id == gid then { g with active := false } else g)

/-- `DELETE FROM giveaway_entries WHERE giveaway_id=?`. -/
def purgeEntries (entries : List Entry) (gid : Nat) : List Entry :=
  entries.filter (fun e => !(e.giveawayId == gid))

/-- Lines 266-276 of `_finalize_giveaway`: when the caller passed no message
object, look the channel up and fetch the stored `message_id`; any failure
leaves `message = None`. -/
def resolveMessage (env : FinalizeEnv) (g : Giveaway) : Option Nat → Option Nat
  | some m => some m
  | none =>
    if env.chanOk then
      match g.messageId with
      | some m => if env.msgOk then some m else none
      | none => none
    else none

/-- The trace of a guarded `message.edit` attempt: visible only when a message
object is at hand and the edit call succeeds (its exception is caught locally
and only logged). -/
def editTrace (env : FinalizeEnv) : Option Nat → List FinOp
  | some _ => if env.editOk then [FinOp.editEnded] else []
  | none => []

/-- `GiveawayCog._finalize_giveaway`.  Returns the new database state and the
trace of participant-visible operations, in the order the code performs them:

* the opening `SELECT ... WHERE id=? AND active=1` aborts with no effect when
  the giveaway is missing or already inactive;
* an empty participant list (from the override or the entries table) takes
  the no-participants path: optional edit, `active=0`, entry purge;
* otherwise winners are sampled and marked `won=1`, `active=0` is written and
  committed, the original post is edited (failure caught locally), the
  winners message is sent if the channel resolves — an exception from that
  unguarded `send` propagates to the outer handler, skipping the purge —
  and finally the entry rows are deleted. -/
def finalize_giveaway (sample : List Nat → Nat → List Nat) (env : FinalizeEnv)
    (st : DBState) (gid : Nat) (message : Option Nat)
    (participantsOverride : Option (List Nat)) : DBState × List FinOp :=
  match st.giveaways.find? (fun g => g.id == gid && g.active) with
  | none => (st, [])
  | some g =>
    let participants :=
      match participantsOverride with
      | none => allParticipantIds st.entries gid
      | some l => l
    let msg := resolveMessage env g message
    if participants.isEmpty then
      ({ st with giveaways := deactivate st.giveaways gid,
                 entries := purgeEntries st.entries gid },
       editTrace env msg ++ [FinOp.setInactive, FinOp.purge])
    else
      let winners := selectWinners sample st.entries gid g.winnerCount
      let marked := markWon st.entries gid winners
      let gs := deactivate st.giveaways gid
      let tr := winners.map FinOp.markWinner ++ [FinOp.setInactive] ++ editTrace env msg
      if env.chanOk then
        if env.sendOk then
          ({ st with giveaways := gs, entries := purgeEntries marked gid },
           tr ++ [FinOp.announce winners, FinOp.purge])
        else
          ({ st with giveaways := gs, entries := marked }, tr)
      else
        ({ st with giveaways := gs, entries := purgeEntries marked gid },
         tr ++ [FinOp.purge])

/-- The body of `_background_check_loop` for one due row: resolve the channel
and fetch the message; on either failure finalize with the empty participant
override `[]`, otherwise finalize normally with the fetched message. -/
def handleDue (sample : List Nat → Nat → List Nat) (env : FinalizeEnv)
    (st : DBState) (g : Giveaway) : DBState × List FinOp :=
  if env.chanOk then
    match g.messageId with
    | some m =>
      if env.msgOk then finalize_giveaway sample env st g.id (some m) none
      else finalize_giveaway sample env st g.id none (some [])
    | none => finalize_giveaway sample env st g.id none (some [])
  else finalize_giveaway sample env st g.id none (some [])

/-- `SELECT id FROM giveaways WHERE guild_id=? AND active=1` of
`giveaway_start` — the whole first connection block. -/
def activeGiveawayExists (st : DBState) (guildId : Nat) : Bool :=
  st.giveaways.any (fun g => g.guildId == guildId && g.active)

/-- `GiveawayCog._create_giveaway`: the `INSERT INTO giveaways ... active=1`
in its own, separate connection; returns the autoincremented row id. -/
def create_giveaway (st : DBState) (guildId channelId : Nat) (title prize : String)
    (winnerCount minMessages minLevel now duration : Nat) : DBState × Nat :=
  let gid := st.nextGiveawayId
  ({ st with
      giveaways := st.giveaways ++
        [{ id := gid, guildId := guildId, channelId := channelId, messageId := none,
           title := title, prize := prize, winnerCount := winnerCount,
           minMessages := minMessages, minLevel := minLevel,
           startTime := now, endTime := now + duration, active := true }],
      nextGiveawayId := gid + 1 }, gid)

/-- `giveaway_start` after the permission and duration checks: the
active-giveaway check, then (in a separate connection) the insert.
`none` stands for the "There is already an active giveaway" refusal. -/
def giveaway_start (st : DBState) (guildId channelId : Nat) (title prize : String)
    (winnerCount minMessages minLevel now duration : Nat) : DBState × Option Nat :=
  if activeGiveawayExists st guildId then (st, none)
  else
    let p := create_giveaway st guildId channelId title prize
      winnerCount minMessages minLevel now duration
    (p.1, some p.2)

/-- Discord resolvability at startup, per id: `chanOk` is `bot.get_channel`
on a channel id, `msgOk` a successful `fetch_message` on a message id. -/
structure RestoreEnv where
  chanOk : Nat → Bool
  msgOk : Nat → Bool

/-- Whether the stored public message of a giveaway can be fetched during
restoration (`fetch_message` on a NULL message id raises). -/
def msgFetchOk (env : RestoreEnv) (g : Giveaway) : Bool :=
  match g.messageId with
  | some m => env.msgOk m
  | none => false

/-- One iteration of the restore loop of `_ensure_db_and_restore`: a missing
channel is only logged and skipped (`continue`); a channel whose stored
message cannot be fetched gets `UPDATE giveaways SET active=0`; otherwise the
persistent view is re-registered (no database change). -/
def restoreGiveaway (env : RestoreEnv) (st : DBState) (g : Giveaway) : DBState :=
  if env.chanOk g.channelId = false then st
  else if msgFetchOk env g then st
  else { st with giveaways := deactivate st.giveaways g.id }

/-- The restore phase of `_ensure_db_and_restore`: fetch the rows with
`active=1` once, then run the loop body over that snapshot. -/
def restore (env : RestoreEnv) (st : DBState) : DBState :=
  (st.giveaways.filter (fun g => g.active)).foldl (restoreGiveaway env) st

/-- `GiveawayCog.giveaway_reroll` after the permission check: require an
existing row with `active=0`, require a non-empty participant snapshot, then
select winners exactly as the finalizer does and mark them `won=1` (no
deactivation, no purge).  `none` stands for the refusal replies. -/
def giveaway_reroll (sample : List Nat → Nat → List Nat) (st : DBState)
    (gid : Nat) : DBState × Option (List Nat) :=
  match st.giveaways.find? (fun g => g.id == gid && !g.active) with
  | none => (st, none)
  | some g =>
    if (allParticipantIds st.entries gid).isEmpty then (st, none)
    else
      let winners := selectWinners sample st.entries gid g.winnerCount
      ({ st with entries := markWon st.entries gid winners }, some winners)

/-- The contract `random.sample(pop, k)` honours for `0 ≤ k ≤ len(pop)`:
`k` results, each drawn from the population. -/
def SampleOk (sample : List Nat → Nat → List Nat) : Prop :=
  ∀ pop k, k ≤ pop.length →
    (sample pop k).length = k ∧ ∀ x ∈ sample pop k, x ∈ pop

/-- A concrete sampler satisfying `SampleOk`, used by the witnesses. -/
def takeSample (pop : List Nat) (k : Nat) : List Nat := pop.take k

theorem takeSample_ok : SampleOk takeSample := by
  intro pop k hk
  refine ⟨?_, ?_⟩
  · simpa [takeSample] using Nat.min_eq_left hk
  · intro x hx
    exact List.mem_of_mem_take hx

/-- A concrete active giveaway row, used by the concrete theorems. -/
def demoGiveaway : Giveaway :=
  { id := 1, guildId := 1, channelId := 10, messageId := some 5, title := "Launch Sale",
    prize := "10 coupons", winnerCount := 1, minMessages := 0, minLevel := 0,
    startTime := 0, endTime := 100, active := true }

/-- A database state holding `demoGiveaway` and one never-won entry. -/
def demoState : DBState :=
  { giveaways := [demoGiveaway], entries := [⟨1, 7, false⟩], users := [], nextGiveawayId := 2 }

theorem pyInt_nil : pyInt [] = none := rfl

/-- C7 counterexample: the spec form `NdNhNm` with several components, such
as `"1h30m"`, is rejected by `_parse_duration` (the `int("1h30")` call
fails), and `"0m"` is accepted with the non-positive duration `0` seconds —
both contradicting the claim that every at-least-one-component `NdNhNm`
string is accepted and only strictly positive durations are. -/
theorem C7_multi_unit_cex :
    parse_duration "1h30m" = none ∧ parse_duration "0m" = some 0 := by
  constructor <;> rfl

/-- C7 amended: `_parse_duration` accepts exactly the strings made of a
Python integer literal followed by one unit character `d`/`h`/`m` in either
case, mapping it to that many days/hours/minutes in seconds; it rejects
every multi-unit combination and does not require the duration to be
positive (zero and negative values are accepted). -/
theorem C7_single_unit_only (s : String) (v : Int) :
    parse_duration s = some v ↔
      ∃ pre u n, s.data = pre ++ [u] ∧ pyInt pre = some n ∧
        ((u.toLower = 'm' ∧ v = n * 60) ∨ (u.toLower = 'h' ∧ v = n * 3600) ∨
         (u.toLower = 'd' ∧ v = n * 86400)) := by
  rcases List.eq_nil_or_concat' s.data with hnil | ⟨L, b, hL⟩
  · simp [parse_duration, hnil]
  · by_cases hlen : s.data.length < 2
    · have hL0 : L = [] := by
        rw [hL] at hlen
        rcases L with _ | ⟨c, L'⟩
        · rfl
        · simp at hlen; omega
      subst hL0
      constructor
      · intro h
        unfold parse_duration at h
        rw [if_pos hlen] at h
        cases h
      · rintro ⟨pre, u, n, hdecomp, hpy, _⟩
        have heq : pre ++ [u] = [] ++ [b] := by rw [← hdecomp, hL]
        have hpre : pre = [] := by
          have hc := congrArg List.length heq
          simpa using hc
        rw [hpre, pyInt_nil] at hpy
        cases hpy
    · have hlast : s.data.getLast? = some b := by rw [hL]; simp
      have hdrop : s.data.dropLast = L := by rw [hL]; simp
      have hstep : parse_duration s =
          match pyInt L with
          | none => none
          | some n =>
            if b.toLower = 'm' then some (n * 60)
            else if b.toLower = 'h' then some (n * 3600)
            else if b.toLower = 'd' then some (n * 86400)
            else none := by
        unfold parse_duration
        rw [if_neg hlen, hlast, hdrop]
      rw [hstep]
      constructor
      · intro h
        rcases hp : pyInt L with _ | n
        · rw [hp] at h; cases h
        · rw [hp] at h
          have h' : (if b.toLower = 'm' then some (n * 60)
              else if b.toLower = 'h' then some (n * 3600)
              else if b.toLower = 'd' then some (n * 86400)
              else none) = some v := h
          refine ⟨L, b, n, hL, hp, ?_⟩
          by_cases hm : b.toLower = 'm'
          · rw [if_pos hm] at h'
            exact Or.inl ⟨hm, (Option.some.injEq _ _ ▸ h').symm⟩
          · rw [if_neg hm] at h'
            by_cases hh : b.toLower = 'h'
            · rw [if_pos hh] at h'
              exact Or.inr (Or.inl ⟨hh, (Option.some.injEq _ _ ▸ h').symm⟩)
            · rw [if_neg hh] at h'
              by_cases hd : b.toLower = 'd'
              · rw [if_pos hd] at h'
                exact Or.inr (Or.inr ⟨hd, (Option.some.injEq _ _ ▸ h').symm⟩)
              · rw [if_neg hd] at h'
                cases h'
      · rintro ⟨pre, u, n, hdecomp, hpy, hcase⟩
        have heq : pre ++ [u] = L ++ [b] := by rw [← hdecomp, hL]
        have hlens : pre.length = L.length := by
          have hc := congrArg List.length heq
          simp at hc
          omega
        obtain ⟨h1, h2⟩ := List.append_inj heq hlens
        have hub : u = b := by simpa using h2
        subst h1
        rw [hpy]
        show (if b.toLower = 'm' then some (n * 60)
            else if b.toLower = 'h' then some (n * 3600)
            else if b.toLower = 'd' then some (n * 86400)
            else none) = some v
        rcases hcase with ⟨hm, hv⟩ | ⟨hh, hv⟩ | ⟨hd, hv⟩
        · rw [hub] at hm
          rw [if_pos hm, hv]
        · rw [hub] at hh
          have hm : ¬ b.toLower = 'm' := by rw [hh]; decide
          rw [if_neg hm, if_pos hh, hv]
        · rw [hub] at hd
          have hm : ¬ b.toLower = 'm' := by rw [hd]; decide
          have hh : ¬ b.toLower = 'h' := by rw [hd]; decide
          rw [if_neg hm, if_neg hh, if_pos hd, hv]

/-- C2: exhibits the race the code does not defend against.  The
active-giveaway check of `giveaway_start` and the insert of
`_create_giveaway` run in two separate database connections, so in the
interleaving check-A, check-B, insert-A, insert-B (each connection block a
suspension point away from the next) both calls pass the check (first
conjunct, evaluated on the shared initial state both checks read) and both
insert, leaving two active giveaways in guild 1 (second conjunct) — against
the claim's "exactly one active event and one AlreadyActive error, even when
the two calls race".  Sequential calls do behave as claimed: the third and
fourth conjuncts show the second sequential call is refused and one active
giveaway remains. -/
theorem C2_race_two_active :
    activeGiveawayExists ⟨[], [], [], 1⟩ 1 = false ∧
    ((create_giveaway (create_giveaway ⟨[], [], [], 1⟩ 1 10 "t" "p" 1 0 0 0 60).1
        1 10 "t" "p" 1 0 0 0 60).1.giveaways.filter
        (fun g => g.guildId == 1 && g.active)).length = 2 ∧
    (giveaway_start (giveaway_start ⟨[], [], [], 1⟩ 1 10 "t" "p" 1 0 0 0 60).1
        1 10 "t" "p" 1 0 0 0 60).2 = none ∧
    ((giveaway_start (giveaway_start ⟨[], [], [], 1⟩ 1 10 "t" "p" 1 0 0 0 60).1
        1 10 "t" "p" 1 0 0 0 60).1.giveaways.filter
        (fun g => g.guildId == 1 && g.active)).length = 1 := by
  decide

/-- C3 counterexample: a store with one active giveaway whose channel cannot
be resolved (`get_channel` returns `None` for every id).  The restore loop
merely logs and `continue`s, so the state is unchanged and the giveaway is
still active while referencing an unreachable destination — against the
claim that no such event remains active after startup. -/
theorem C3_channel_skip_cex :
    restore ⟨fun _ => false, fun _ => true⟩ demoState = demoState ∧
    demoGiveaway.active = true := ⟨rfl, rfl⟩

/-- Every giveaway row after the restore fold descends from an initial row:
it is either that row unchanged or that row with `active` cleared. -/
theorem mem_restore_fold (env : RestoreEnv) (L : List Giveaway) (st : DBState) :
    ∀ g' ∈ (L.foldl (restoreGiveaway env) st).giveaways,
      ∃ g0 ∈ st.giveaways, g' = g0 ∨ g' = { g0 with active := false } := by
  induction L generalizing st with
  | nil => exact fun g' h => ⟨g', h, Or.inl rfl⟩
  | cons a L ih =>
    intro g' h
    simp only [List.foldl_cons] at h
    obtain ⟨g0, hg0, hrel⟩ := ih (restoreGiveaway env st a) g' h
    have hdown : ∃ g1 ∈ st.giveaways, g0 = g1 ∨ g0 = { g1 with active := false } := by
      unfold restoreGiveaway at hg0
      split at hg0
      · exact ⟨g0, hg0, Or.inl rfl⟩
      · split at hg0
        · exact ⟨g0, hg0, Or.inl rfl⟩
        · simp only [deactivate, List.mem_map] at hg0
          obtain ⟨g1, hg1, he⟩ := hg0
          by_cases hc : (g1.id == a.id) = true
          · rw [if_pos hc] at he
            exact ⟨g1, hg1, Or.inr he.symm⟩
          · rw [if_neg hc] at he
            exact ⟨g1, hg1, Or.inl he.symm⟩
    obtain ⟨g1, hg1, hrel2⟩ := hdown
    rcases hrel with hrel | hrel <;> rcases hrel2 with hrel2 | hrel2
    · exact ⟨g1, hg1, Or.inl (hrel.trans hrel2)⟩
    · exact ⟨g1, hg1, Or.inr (hrel.trans hrel2)⟩
    · exact ⟨g1, hg1, Or.inr (hrel.trans (by rw [hrel2]))⟩
    · exact ⟨g1, hg1, Or.inr (hrel.trans (by rw [hrel2]))⟩

/-- The restore fold never re-activates a row: once every row of an id is
inactive, it stays so. -/
theorem restore_fold_keeps_inactive (env : RestoreEnv) (L : List Giveaway)
    (st : DBState) (I : Nat)
    (h0 : ∀ e ∈ st.giveaways, e.id = I → e.active = false) :
    ∀ e ∈ (L.foldl (restoreGiveaway env) st).giveaways, e.id = I → e.active = false := by
  induction L generalizing st with
  | nil => exact h0
  | cons a L ih =>
    simp only [List.foldl_cons]
    refine ih (restoreGiveaway env st a) ?_
    intro e he hid
    unfold restoreGiveaway at he
    split at he
    · exact h0 e he hid
    · split at he
      · exact h0 e he hid
      · simp only [deactivate, List.mem_map] at he
        obtain ⟨g1, hg1, hfe⟩ := he
        by_cases hc : (g1.id == a.id) = true
        · rw [if_pos hc] at hfe; rw [← hfe]
        · rw [if_neg hc] at hfe
          subst hfe
          exact h0 g1 hg1 hid

/-- When the snapshot contains a row whose channel resolves but whose stored
message cannot be fetched, the fold leaves every row of that id inactive. -/
theorem restore_fold_deactivates (env : RestoreEnv) (L : List Giveaway)
    (st : DBState) (g0 : Giveaway) (hmem : g0 ∈ L)
    (hchan : env.chanOk g0.channelId = true) (hmsg : msgFetchOk env g0 = false) :
    ∀ e ∈ (L.foldl (restoreGiveaway env) st).giveaways, e.id = g0.id → e.active = false := by
  induction L generalizing st with
  | nil => cases hmem
  | cons a L ih =>
    rcases List.mem_cons.mp hmem with rfl | hmem'
    · simp only [List.foldl_cons]
      refine restore_fold_keeps_inactive env L _ g0.id ?_
      have hstep : restoreGiveaway env st g0 =
          { st with giveaways := deactivate st.giveaways g0.id } := by
        unfold restoreGiveaway
        rw [hchan, hmsg]
        simp
      rw [hstep]
      intro e he hid
      simp only [deactivate, List.mem_map] at he
      obtain ⟨g1, hg1, hfe⟩ := he
      by_cases hc : (g1.id == g0.id) = true
      · rw [if_pos hc] at hfe; rw [← hfe]
      · rw [if_neg hc] at hfe
        subst hfe
        exact absurd (beq_iff_eq.mpr hid) (by simpa using hc)
    · simp only [List.foldl_cons]
      exact ih (restoreGiveaway env st a) hmem'

/-- C3 amended: after `_ensure_db_and_restore`'s restore phase, every still
active giveaway whose channel resolves has a fetchable public message — a
resolvable channel with an unfetchable message is always marked inactive.
Events whose channel cannot be resolved, however, are only skipped and stay
active (see the counterexample). -/
theorem C3_restore_inactivates_unfetchable (env : RestoreEnv) (st : DBState) :
    ∀ g' ∈ (restore env st).giveaways, g'.active = true →
      env.chanOk g'.channelId = true → msgFetchOk env g' = true := by
  intro g' hmem hact hchan
  cases hmsg : msgFetchOk env g'
  · obtain ⟨g0, hg0, hrel⟩ := mem_restore_fold env _ st g' hmem
    rcases hrel with rfl | rfl
    · have hsnap : g' ∈ st.giveaways.filter (fun g => g.active) :=
        List.mem_filter.mpr ⟨hg0, hact⟩
      have hdead := restore_fold_deactivates env _ st g' hsnap hchan hmsg g' hmem rfl
      rw [hact] at hdead; cases hdead
    · simp at hact
  · rfl

/-- C3 witness: the amended theorem applied to `demoState` under an
environment where everything resolves. -/
theorem C3_witness :
    msgFetchOk ⟨fun _ => true, fun _ => true⟩ demoGiveaway = true :=
  C3_restore_inactivates_unfetchable ⟨fun _ => true, fun _ => true⟩ demoState
    demoGiveaway
    (by rw [show restore ⟨fun _ => true, fun _ => true⟩ demoState = demoState from rfl]
        exact List.mem_singleton.mpr rfl)
    rfl rfl

/-- C4 counterexample: a giveaway with participants `{100 (has won), 200
(never won)}` and `winner_count = 2`.  The claim says the result has exactly
`min(requestedWinnerCount, totalParticipants) = min(2,2) = 2` entries, the
never-won slot being topped up from the previously-won participants.  The
code instead clamps to the never-won pool alone and returns a single winner
(`takeSample` here stands for `random.sample`, whose result length
`min(winner_count, len(pool))` is the same for every valid sampler). -/
theorem C4_no_backfill_cex :
    selectWinners takeSample [⟨1, 100, true⟩, ⟨1, 200, false⟩] 1 2 = [200] ∧
    (allParticipantIds [⟨1, 100, true⟩, ⟨1, 200, false⟩] 1).length = 2 := by
  decide

/-- C4 amended: when never-won participants exist, winners are sampled
without replacement from the never-won set only, and the result has
`min(requestedWinnerCount, |neverWon|)` entries — the remaining slots are
never filled from previously-won participants; only when the never-won set
is empty does selection fall back to the full participant set, giving
`min(requestedWinnerCount, totalParticipants)` entries. -/
theorem C4_pool_and_count (sample : List Nat → Nat → List Nat)
    (hs : SampleOk sample) (entries : List Entry) (gid wc : Nat) :
    (neverWonIds entries gid ≠ [] →
      (selectWinners sample entries gid wc).length = min wc (neverWonIds entries gid).length ∧
      ∀ x ∈ selectWinners sample entries gid wc, x ∈ neverWonIds entries gid) ∧
    (neverWonIds entries gid = [] →
      (selectWinners sample entries gid wc).length = min wc (allParticipantIds entries gid).length ∧
      ∀ x ∈ selectWinners sample entries gid wc, x ∈ allParticipantIds entries gid) := by
  constructor
  · intro hne
    have hpool : winnerPool entries gid = neverWonIds entries gid := by
      unfold winnerPool
      rw [if_neg (by simpa using hne)]
    unfold selectWinners
    rw [hpool]
    exact hs _ _ (Nat.min_le_right _ _)
  · intro he
    have hpool : winnerPool entries gid = allParticipantIds entries gid := by
      unfold winnerPool
      rw [if_pos (by simpa using he)]
    unfold selectWinners
    rw [hpool]
    exact hs _ _ (Nat.min_le_right _ _)

/-- C4 witness: the amended theorem at a one-participant giveaway with the
`take`-based sampler. -/
theorem C4_pool_and_count_witness :
    (neverWonIds [⟨1, 7, false⟩] 1 ≠ [] →
      (selectWinners takeSample [⟨1, 7, false⟩] 1 1).length
          = min 1 (neverWonIds [⟨1, 7, false⟩] 1).length ∧
      ∀ x ∈ selectWinners takeSample [⟨1, 7, false⟩] 1 1, x ∈ neverWonIds [⟨1, 7, false⟩] 1) ∧
    (neverWonIds [⟨1, 7, false⟩] 1 = [] →
      (selectWinners takeSample [⟨1, 7, false⟩] 1 1).length
          = min 1 (allParticipantIds [⟨1, 7, false⟩] 1).length ∧
      ∀ x ∈ selectWinners takeSample [⟨1, 7, false⟩] 1 1, x ∈ allParticipantIds [⟨1, 7, false⟩] 1) :=
  C4_pool_and_count takeSample takeSample_ok [⟨1, 7, false⟩] 1 1

/-- C5: under an active giveaway and an eligible user with no existing entry
row, the first join inserts exactly one `(gid, uid)` row, and a second join
is the idempotent non-error outcome: it reports success again (the code's
`INSERT OR IGNORE` folds the spec's `AlreadyJoined` into the same
acknowledgement), leaves the row count at one and the state unchanged. -/
theorem C5_join_idempotent (mm ml : Nat) (st : DBState) (gid uid : Nat)
    (g : Giveaway) (u : UserRow)
    (hg : st.giveaways.find? (fun x => x.id == gid) = some g) (ha : g.active = true)
    (hu : st.users.find? (fun x => x.userId == uid) = some u)
    (hm : mm ≤ u.messages) (hl : ml ≤ u.level)
    (h0 : st.entries.filter (fun e => e.giveawayId == gid && e.userId == uid) = []) :
    (join_button mm ml st gid uid).1 = JoinResult.joined ∧
    ((join_button mm ml st gid uid).2.entries.filter
        (fun e => e.giveawayId == gid && e.userId == uid)).length = 1 ∧
    (join_button mm ml (join_button mm ml st gid uid).2 gid uid).1 = JoinResult.joined ∧
    (join_button mm ml (join_button mm ml st gid uid).2 gid uid).2
      = (join_button mm ml st gid uid).2 := by
  have hany : st.entries.any (fun e => e.giveawayId == gid && e.userId == uid) = false := by
    rw [List.any_eq_false]
    intro e he
    have := List.filter_eq_nil_iff.mp h0 e he
    simpa using this
  have hjb1 : join_button mm ml st gid uid =
      (JoinResult.joined, { st with entries := st.entries ++ [⟨gid, uid, false⟩] }) := by
    unfold join_button
    rw [hg]
    dsimp only
    rw [if_neg (by rw [ha]; decide), hu]
    dsimp only
    rw [if_neg (Nat.not_lt.mpr hm), if_neg (Nat.not_lt.mpr hl), hany]
    simp
  have hmem : (⟨gid, uid, false⟩ : Entry) ∈ st.entries ++ [(⟨gid, uid, false⟩ : Entry)] :=
    List.mem_append_right _ (List.mem_singleton.mpr rfl)
  have hany2 : (st.entries ++ [(⟨gid, uid, false⟩ : Entry)]).any
      (fun e => e.giveawayId == gid && e.userId == uid) = true := by
    rw [List.any_eq_true]
    exact ⟨⟨gid, uid, false⟩, hmem, by simp⟩
  have hjb2 : join_button mm ml { st with entries := st.entries ++ [⟨gid, uid, false⟩] } gid uid =
      (JoinResult.joined, { st with entries := st.entries ++ [⟨gid, uid, false⟩] }) := by
    unfold join_button
    rw [show ({ st with entries := st.entries ++ [⟨gid, uid, false⟩] } : DBState).giveaways
          = st.giveaways from rfl, hg]
    dsimp only
    rw [if_neg (by rw [ha]; decide)]
    rw [show ({ st with entries := st.entries ++ [⟨gid, uid, false⟩] } : DBState).users
          = st.users from rfl, hu]
    dsimp only
    rw [if_neg (Nat.not_lt.mpr hm), if_neg (Nat.not_lt.mpr hl)]
    rw [hany2]
    simp
  refine ⟨by rw [hjb1], ?_, by rw [hjb1, hjb2], by rw [hjb1, hjb2]⟩
  rw [hjb1]
  show ((st.entries ++ [(⟨gid, uid, false⟩ : Entry)]).filter
      (fun e => e.giveawayId == gid && e.userId == uid)).length = 1
  rw [List.filter_append, h0]
  simp

/-- A state with `demoGiveaway` active, no entries, and one user eligible
for thresholds `minMessages = 5`, `minLevel = 2`. -/
def joinState : DBState :=
  { giveaways := [demoGiveaway], entries := [], users := [⟨7, 10, 3⟩], nextGiveawayId := 2 }

/-- C5 witness: the idempotent-join theorem at `joinState`, user 7. -/
theorem C5_join_idempotent_witness :
    (join_button 5 2 joinState 1 7).1 = JoinResult.joined ∧
    ((join_button 5 2 joinState 1 7).2.entries.filter
        (fun e => e.giveawayId == 1 && e.userId == 7)).length = 1 ∧
    (join_button 5 2 (join_button 5 2 joinState 1 7).2 1 7).1 = JoinResult.joined ∧
    (join_button 5 2 (join_button 5 2 joinState 1 7).2 1 7).2
      = (join_button 5 2 joinState 1 7).2 :=
  C5_join_idempotent 5 2 joinState 1 7 demoGiveaway ⟨7, 10, 3⟩ rfl rfl rfl
    (by decide) (by decide) rfl

/-- C8: eligibility is decided by a fresh read of the `users` table on every
click.  With the giveaway active: a user with no stats row is rejected as
`noStats` with no state change; one below the message threshold is rejected
`needMessages`, one below the level threshold `needLevel`, each with no state
change; and after only the stats list changes to meet both thresholds —
giveaway and entry tables untouched — the same user's next attempt joins. -/
theorem C8_fresh_eligibility (mm ml : Nat) (st : DBState) (gid uid : Nat)
    (g : Giveaway) (hg : st.giveaways.find? (fun x => x.id == gid) = some g)
    (ha : g.active = true) :
    (st.users.find? (fun x => x.userId == uid) = none →
      join_button mm ml st gid uid = (JoinResult.noStats, st)) ∧
    (∀ u, st.users.find? (fun x => x.userId == uid) = some u →
      u.messages < mm →
      join_button mm ml st gid uid = (JoinResult.needMessages, st)) ∧
    (∀ u, st.users.find? (fun x => x.userId == uid) = some u →
      ¬ u.messages < mm → u.level < ml →
      join_button mm ml st gid uid = (JoinResult.needLevel, st)) ∧
    (∀ us' u', us'.find? (fun x => x.userId == uid) = some u' →
      mm ≤ u'.messages → ml ≤ u'.level →
      (join_button mm ml { st with users := us' } gid uid).1 = JoinResult.joined ∧
      ({ st with users := us' } : DBState).giveaways = st.giveaways ∧
      ({ st with users := us' } : DBState).entries = st.entries) := by
  refine ⟨?_, ?_, ?_, ?_⟩
  · intro hnone
    unfold join_button
    rw [hg]
    dsimp only
    rw [if_neg (by rw [ha]; decide), hnone]
  · intro u hu hlt
    unfold join_button
    rw [hg]
    dsimp only
    rw [if_neg (by rw [ha]; decide), hu]
    dsimp only
    rw [if_pos hlt]
  · intro u hu hnlt hlt
    unfold join_button
    rw [hg]
    dsimp only
    rw [if_neg (by rw [ha]; decide), hu]
    dsimp only
    rw [if_neg hnlt, if_pos hlt]
  · intro us' u' hu' hm2 hl2
    refine ⟨?_, rfl, rfl⟩
    unfold join_button
    rw [show ({ st with users := us' } : DBState).giveaways = st.giveaways from rfl, hg]
    dsimp only
    rw [if_neg (by rw [ha]; decide)]
    rw [hu']
    dsimp only
    rw [if_neg (Nat.not_lt.mpr hm2), if_neg (Nat.not_lt.mpr hl2)]

/-- A state whose only user is below the `minMessages = 5` threshold. -/
def lowStatState : DBState :=
  { giveaways := [demoGiveaway], entries := [], users := [⟨7, 2, 3⟩], nextGiveawayId := 2 }

/-- C8 witness: the fresh-eligibility theorem at `lowStatState`. -/
theorem C8_fresh_eligibility_witness :
    (lowStatState.users.find? (fun x => x.userId == 7) = none →
      join_button 5 2 lowStatState 1 7 = (JoinResult.noStats, lowStatState)) ∧
    (∀ u, lowStatState.users.find? (fun x => x.userId == 7) = some u →
      u.messages < 5 →
      join_button 5 2 lowStatState 1 7 = (JoinResult.needMessages, lowStatState)) ∧
    (∀ u, lowStatState.users.find? (fun x => x.userId == 7) = some u →
      ¬ u.messages < 5 → u.level < 2 →
      join_button 5 2 lowStatState 1 7 = (JoinResult.needLevel, lowStatState)) ∧
    (∀ us' u', us'.find? (fun x => x.userId == 7) = some u' →
      5 ≤ u'.messages → 2 ≤ u'.level →
      (join_button 5 2 { lowStatState with users := us' } 1 7).1 = JoinResult.joined ∧
      ({ lowStatState with users := us' } : DBState).giveaways = lowStatState.giveaways ∧
      ({ lowStatState with users := us' } : DBState).entries = lowStatState.entries) :=
  C8_fresh_eligibility 5 2 lowStatState 1 7 demoGiveaway rfl rfl

/-- Every operation an edit attempt contributes to the trace is the edit
itself. -/
theorem editTrace_mem (env : FinalizeEnv) (m : Option Nat) :
    ∀ op ∈ editTrace env m, op = FinOp.editEnded := by
  intro op h
  rcases m with _ | mid
  · cases h
  · simp only [editTrace] at h
    split at h
    · simpa using h
    · cases h

/-- Finalizing an active giveaway with the empty participant override takes
the no-participants path: deactivate, purge, no winner marking and no
winners announcement. -/
theorem finalize_override_nil (sample : List Nat → Nat → List Nat) (env : FinalizeEnv)
    (st : DBState) (gid : Nat) (m : Option Nat) (gf : Giveaway)
    (hfind : st.giveaways.find? (fun x => x.id == gid && x.active) = some gf) :
    finalize_giveaway sample env st gid m (some []) =
      ({ st with giveaways := deactivate st.giveaways gid,
                 entries := purgeEntries st.entries gid },
       editTrace env (resolveMessage env gf m) ++ [FinOp.setInactive, FinOp.purge]) := by
  unfold finalize_giveaway
  rw [hfind]
  rfl

/-- C9: a due event whose channel cannot be resolved, whose stored message
id is missing, or whose message fetch fails is finalized by the background
loop with the empty participant override `[]`: regardless of how many entry
rows exist, no winner is marked, no winners announcement is posted, the
event is deactivated and all of its entry rows are deleted. -/
theorem C9_unreachable_due (sample : List Nat → Nat → List Nat) (env : FinalizeEnv)
    (st : DBState) (g gf : Giveaway)
    (hfind : st.giveaways.find? (fun x => x.id == g.id && x.active) = some gf)
    (henv : env.chanOk = false ∨ g.messageId = none ∨ env.msgOk = false) :
    (handleDue sample env st g).1.entries = purgeEntries st.entries g.id ∧
    (handleDue sample env st g).1.giveaways = deactivate st.giveaways g.id ∧
    (∀ u, FinOp.markWinner u ∉ (handleDue sample env st g).2) ∧
    (∀ w, FinOp.announce w ∉ (handleDue sample env st g).2) := by
  have hdue : handleDue sample env st g
      = finalize_giveaway sample env st g.id none (some []) := by
    unfold handleDue
    cases hc : env.chanOk
    · simp
    · rcases henv with h | h | h
      · rw [hc] at h; cases h
      · rw [h]; simp
      · rcases hmid : g.messageId with _ | mid
        · simp
        · rw [h]; simp
  rw [hdue, finalize_override_nil sample env st g.id none gf hfind]
  refine ⟨rfl, rfl, ?_, ?_⟩
  · intro u hmem
    rcases List.mem_append.mp hmem with h | h
    · exact FinOp.noConfusion (editTrace_mem env _ _ h)
    · simp at h
  · intro w hmem
    rcases List.mem_append.mp hmem with h | h
    · exact FinOp.noConfusion (editTrace_mem env _ _ h)
    · simp at h

/-- C9 witness: the due giveaway of `demoState` (which has one entry row)
handled under an unresolvable channel. -/
theorem C9_unreachable_due_witness :
    (handleDue takeSample ⟨false, true, true, true⟩ demoState demoGiveaway).1.entries
      = purgeEntries demoState.entries demoGiveaway.id ∧
    (handleDue takeSample ⟨false, true, true, true⟩ demoState demoGiveaway).1.giveaways
      = deactivate demoState.giveaways demoGiveaway.id ∧
    (∀ u, FinOp.markWinner u ∉
      (handleDue takeSample ⟨false, true, true, true⟩ demoState demoGiveaway).2) ∧
    (∀ w, FinOp.announce w ∉
      (handleDue takeSample ⟨false, true, true, true⟩ demoState demoGiveaway).2) :=
  C9_unreachable_due takeSample ⟨false, true, true, true⟩ demoState demoGiveaway
    demoGiveaway rfl (Or.inl rfl)

/-- Entry-table evolution in which no row's `won` flag ever drops from
`true` back to `false`: every surviving row descends from a row with the
same keys whose `won` value it can only have raised. -/
def WonUpgrade (l l' : List Entry) : Prop :=
  ∀ e' ∈ l', ∃ e ∈ l,
    e'.giveawayId = e.giveawayId ∧ e'.userId = e.userId ∧ (e.won = true → e'.won = true)

theorem wonUpgrade_refl (l : List Entry) : WonUpgrade l l :=
  fun e' h => ⟨e', h, rfl, rfl, fun hw => hw⟩

theorem wonUpgrade_markWon (l : List Entry) (gid : Nat) (ws : List Nat) :
    WonUpgrade l (markWon l gid ws) := by
  intro e' h
  simp only [markWon, List.mem_map] at h
  obtain ⟨e, he, hfe⟩ := h
  by_cases hc : (e.giveawayId == gid && ws.contains e.userId) = true
  · rw [if_pos hc] at hfe
    subst hfe
    exact ⟨e, he, rfl, rfl, fun _ => rfl⟩
  · rw [if_neg hc] at hfe
    subst hfe
    exact ⟨e, he, rfl, rfl, fun hw => hw⟩

theorem wonUpgrade_filter (l l' : List Entry) (p : Entry → Bool) (h : WonUpgrade l l') :
    WonUpgrade l (l'.filter p) :=
  fun e' h' => h e' (List.mem_filter.mp h').1

/-- Marking winners `won=1` can only shrink the never-won id set. -/
theorem neverWonIds_markWon_subset (l : List Entry) (gid : Nat) (ws : List Nat) (gid' : Nat) :
    ∀ x ∈ neverWonIds (markWon l gid ws) gid', x ∈ neverWonIds l gid' := by
  intro x hx
  simp only [neverWonIds, List.mem_map, List.mem_filter] at hx ⊢
  obtain ⟨e', ⟨hm, hp⟩, hx⟩ := hx
  simp only [markWon, List.mem_map] at hm
  obtain ⟨e, he, hfe⟩ := hm
  by_cases hc : (e.giveawayId == gid && ws.contains e.userId) = true
  · rw [if_pos hc] at hfe
    subst hfe
    simp at hp
  · rw [if_neg hc] at hfe
    subst hfe
    exact ⟨e, ⟨he, hp⟩, hx⟩

theorem neverWonIds_filter_subset (l : List Entry) (p : Entry → Bool) (gid' : Nat) :
    ∀ x ∈ neverWonIds (l.filter p) gid', x ∈ neverWonIds l gid' := by
  intro x hx
  simp only [neverWonIds, List.mem_map, List.mem_filter] at hx ⊢
  obtain ⟨e, ⟨⟨hel, hpe⟩, hp⟩, hx⟩ := hx
  exact ⟨e, ⟨hel, hp⟩, hx⟩

/-- The reroll leaves the entry table unchanged or marks winners in it. -/
theorem reroll_entries_cases (sample : List Nat → Nat → List Nat) (st : DBState) (gid : Nat) :
    (giveaway_reroll sample st gid).1.entries = st.entries ∨
    ∃ ws, (giveaway_reroll sample st gid).1.entries = markWon st.entries gid ws := by
  unfold giveaway_reroll
  rcases hf : st.giveaways.find? (fun g => g.id == gid && !g.active) with _ | g
  · rw [hf]; exact Or.inl rfl
  · rw [hf]
    dsimp only
    split
    · exact Or.inl rfl
    · exact Or.inr ⟨selectWinners sample st.entries gid g.winnerCount, rfl⟩

/-- The finalizer leaves the entry table unchanged, purges it, marks
winners, or marks winners and purges — never anything else. -/
theorem finalize_entries_cases (sample : List Nat → Nat → List Nat) (env : FinalizeEnv)
    (st : DBState) (gid : Nat) (m : Option Nat) (ov : Option (List Nat)) :
    (finalize_giveaway sample env st gid m ov).1.entries = st.entries ∨
    (finalize_giveaway sample env st gid m ov).1.entries = purgeEntries st.entries gid ∨
    ∃ ws, (finalize_giveaway sample env st gid m ov).1.entries = markWon st.entries gid ws ∨
      (finalize_giveaway sample env st gid m ov).1.entries
        = purgeEntries (markWon st.entries gid ws) gid := by
  unfold finalize_giveaway
  rcases hf : st.giveaways.find? (fun x => x.id == gid && x.active) with _ | g
  · rw [hf]; exact Or.inl rfl
  · rw [hf]
    dsimp only
    split
    · exact Or.inr (Or.inl rfl)
    · split
      · split
        · exact Or.inr (Or.inr ⟨selectWinners sample st.entries gid g.winnerCount, Or.inr rfl⟩)
        · exact Or.inr (Or.inr ⟨selectWinners sample st.entries gid g.winnerCount, Or.inl rfl⟩)
      · exact Or.inr (Or.inr ⟨selectWinners sample st.entries gid g.winnerCount, Or.inr rfl⟩)

/-- C10: no operation ever clears a `won` flag.  Both the finalizer and the
reroll only upgrade `won` (or delete rows), so every surviving entry row
descends from an original row with the same keys and a `won` value that can
only have gone from `false` to `true`, and the never-won participant set of
every event can only shrink across reroll and finalize steps. -/
theorem C10_won_monotone (sample : List Nat → Nat → List Nat) (env : FinalizeEnv)
    (st : DBState) (gid rid : Nat) (m : Option Nat) (ov : Option (List Nat)) :
    WonUpgrade st.entries (giveaway_reroll sample st rid).1.entries ∧
    WonUpgrade st.entries (finalize_giveaway sample env st gid m ov).1.entries ∧
    (∀ gid', ∀ x ∈ neverWonIds (giveaway_reroll sample st rid).1.entries gid',
      x ∈ neverWonIds st.entries gid') ∧
    (∀ gid', ∀ x ∈ neverWonIds (finalize_giveaway sample env st gid m ov).1.entries gid',
      x ∈ neverWonIds st.entries gid') := by
  refine ⟨?_, ?_, ?_, ?_⟩
  · rcases reroll_entries_cases sample st rid with h | ⟨ws, h⟩
    · rw [h]; exact wonUpgrade_refl _
    · rw [h]; exact wonUpgrade_markWon _ _ _
  · rcases finalize_entries_cases sample env st gid m ov with h | h | ⟨ws, h | h⟩
    · rw [h]; exact wonUpgrade_refl _
    · rw [h]; exact wonUpgrade_filter _ _ _ (wonUpgrade_refl _)
    · rw [h]; exact wonUpgrade_markWon _ _ _
    · rw [h]; exact wonUpgrade_filter _ _ _ (wonUpgrade_markWon _ _ _)
  · intro gid' x hx
    rcases reroll_entries_cases sample st rid with h | ⟨ws, h⟩
    · rw [h] at hx; exact hx
    · rw [h] at hx; exact neverWonIds_markWon_subset _ _ _ _ x hx
  · intro gid' x hx
    rcases finalize_entries_cases sample env st gid m ov with h | h | ⟨ws, h | h⟩
    · rw [h] at hx; exact hx
    · rw [h] at hx; exact neverWonIds_filter_subset _ _ _ x hx
    · rw [h] at hx; exact neverWonIds_markWon_subset _ _ _ _ x hx
    · rw [h] at hx
      exact neverWonIds_markWon_subset _ _ _ _ x
        (neverWonIds_filter_subset _ _ _ x hx)

/-- C6: on `demoState`, a finalization whose winners `channel.send` raises
(`sendOk = false`) keeps the marked entry row — the unguarded `await
ch.send(...)` throws to the outer handler and the `DELETE FROM
giveaway_entries` after it never runs — although the giveaway itself was
already flipped inactive.  For contrast: with a succeeding send the purge
runs, and a failing `message.edit` alone (third/fourth conjuncts from the
end) is caught locally and does not block the purge. -/
theorem C6_send_failure_skips_purge :
    (finalize_giveaway takeSample ⟨true, true, true, false⟩ demoState 1 (some 5) none).1.entries
      = [⟨1, 7, true⟩] ∧
    (finalize_giveaway takeSample ⟨true, true, true, false⟩ demoState 1 (some 5) none).1.giveaways
      = [{ demoGiveaway with active := false }] ∧
    FinOp.purge ∉
      (finalize_giveaway takeSample ⟨true, true, true, false⟩ demoState 1 (some 5) none).2 ∧
    FinOp.purge ∈
      (finalize_giveaway takeSample ⟨true, true, true, true⟩ demoState 1 (some 5) none).2 ∧
    FinOp.editEnded ∉
      (finalize_giveaway takeSample ⟨true, true, false, true⟩ demoState 1 (some 5) none).2 ∧
    FinOp.purge ∈
      (finalize_giveaway takeSample ⟨true, true, false, true⟩ demoState 1 (some 5) none).2 := by
  decide

/-- C1 counterexample: on `demoState` the finalizer's participant-visible
trace is mark-winner, flip, edit, announce, purge — the winner marking
(`UPDATE giveaway_entries SET won=1`, line 313) happens at index 0, before
the `active=0` flip at index 1, against the claim that every
participant-visible effect including winner marking happens only after the
successful flip. -/
theorem C1_mark_before_flip_cex :
    (finalize_giveaway takeSample ⟨true, true, true, true⟩ demoState 1 (some 5) none).2
      = [FinOp.markWinner 7, FinOp.setInactive, FinOp.editEnded,
         FinOp.announce [7], FinOp.purge] ∧
    ((finalize_giveaway takeSample ⟨true, true, true, true⟩ demoState 1 (some 5) none).2.indexOf
        (FinOp.markWinner 7)
      < (finalize_giveaway takeSample ⟨true, true, true, true⟩ demoState 1 (some 5) none).2.indexOf
        FinOp.setInactive) := by
  decide

theorem mem_map_markWinner (ws : List Nat) :
    ∀ op ∈ ws.map FinOp.markWinner, ∃ u, op = FinOp.markWinner u := by
  intro op h
  obtain ⟨u, _, rfl⟩ := List.mem_map.mp h
  exact ⟨u, rfl⟩

/-- After `UPDATE giveaways SET active=0 WHERE id=?`, the finalizer's opening
`SELECT ... WHERE id=? AND active=1` finds nothing. -/
theorem find_deactivate_none (gs : List Giveaway) (gid : Nat) :
    (deactivate gs gid).find? (fun x => x.id == gid && x.active) = none := by
  rw [List.find?_eq_none]
  intro x hx
  simp only [deactivate, List.mem_map] at hx
  obtain ⟨g, hg, hfe⟩ := hx
  by_cases hc : (g.id == gid) = true
  · rw [if_pos hc] at hfe
    subst hfe
    simp
  · rw [if_neg hc] at hfe
    subst hfe
    simp [hc]

/-- Finalizing a missing or already inactive giveaway is a no-op with an
empty trace. -/
theorem finalize_inactive_noop (sample : List Nat → Nat → List Nat) (env : FinalizeEnv)
    (st : DBState) (gid : Nat) (m : Option Nat) (ov : Option (List Nat))
    (hfind : st.giveaways.find? (fun x => x.id == gid && x.active) = none) :
    finalize_giveaway sample env st gid m ov = (st, []) := by
  unfold finalize_giveaway
  rw [hfind]

/-- Every successful finalization branch writes `active=0` for the id. -/
theorem finalize_giveaways_deactivated (sample : List Nat → Nat → List Nat)
    (env : FinalizeEnv) (st : DBState) (gid : Nat) (m : Option Nat)
    (ov : Option (List Nat)) (g : Giveaway)
    (hfind : st.giveaways.find? (fun x => x.id == gid && x.active) = some g) :
    (finalize_giveaway sample env st gid m ov).1.giveaways
      = deactivate st.giveaways gid := by
  unfold finalize_giveaway
  rw [hfind]
  dsimp only
  split
  · rfl
  · split
    · split
      · rfl
      · rfl
    · rfl

/-- C1 amended: the finalizer verifies `active=1` first and aborts with no
effect when the check fails; its trace contains exactly one flip, with
winner marking before the flip (inside the same transaction committed with
it) and the announcement and the purge only after it; and once it has run,
every further invocation for the same id — with any sampler, environment,
message or override — returns immediately with no state change and no
trace, so at most one announcement and exactly one true-to-false transition
ever happen. -/
theorem C1_flip_guards_effects (sample : List Nat → Nat → List Nat) (env : FinalizeEnv)
    (st : DBState) (gid : Nat) (m : Option Nat) (ov : Option (List Nat)) (g : Giveaway)
    (hfind : st.giveaways.find? (fun x => x.id == gid && x.active) = some g) :
    (∃ pre post,
      (finalize_giveaway sample env st gid m ov).2 = pre ++ FinOp.setInactive :: post ∧
      FinOp.setInactive ∉ pre ∧ FinOp.setInactive ∉ post ∧
      (∀ u, FinOp.markWinner u ∉ post) ∧
      (∀ w, FinOp.announce w ∉ pre) ∧
      FinOp.purge ∉ pre) ∧
    (∀ sample' env' m' ov',
      finalize_giveaway sample' env' (finalize_giveaway sample env st gid m ov).1 gid m' ov'
        = ((finalize_giveaway sample env st gid m ov).1, [])) := by
  constructor
  · unfold finalize_giveaway
    rw [hfind]
    dsimp only
    split
    · refine ⟨editTrace env (resolveMessage env g m), [FinOp.purge], rfl, ?_, by simp,
        by simp, ?_, ?_⟩
      · intro hmem
        exact FinOp.noConfusion (editTrace_mem env _ _ hmem)
      · intro w hmem
        exact FinOp.noConfusion (editTrace_mem env _ _ hmem)
      · intro hmem
        exact FinOp.noConfusion (editTrace_mem env _ _ hmem)
    · split
      · split
        · refine ⟨(selectWinners sample st.entries gid g.winnerCount).map FinOp.markWinner,
            editTrace env (resolveMessage env g m)
              ++ [FinOp.announce (selectWinners sample st.entries gid g.winnerCount),
                  FinOp.purge],
            by simp, ?_, ?_, ?_, ?_, ?_⟩
          · intro hmem
            obtain ⟨u, hu⟩ := mem_map_markWinner _ _ hmem
            exact FinOp.noConfusion hu
          · intro hmem
            rcases List.mem_append.mp hmem with h | h
            · exact FinOp.noConfusion (editTrace_mem env _ _ h)
            · simp at h
          · intro u hmem
            rcases List.mem_append.mp hmem with h | h
            · exact FinOp.noConfusion (editTrace_mem env _ _ h)
            · simp at h
          · intro w hmem
            obtain ⟨u, hu⟩ := mem_map_markWinner _ _ hmem
            exact FinOp.noConfusion hu
          · intro hmem
            obtain ⟨u, hu⟩ := mem_map_markWinner _ _ hmem
            exact FinOp.noConfusion hu
        · refine ⟨(selectWinners sample st.entries gid g.winnerCount).map FinOp.markWinner,
            editTrace env (resolveMessage env g m),
            by simp, ?_, ?_, ?_, ?_, ?_⟩
          · intro hmem
            obtain ⟨u, hu⟩ := mem_map_markWinner _ _ hmem
            exact FinOp.noConfusion hu
          · intro hmem
            exact FinOp.noConfusion (editTrace_mem env _ _ hmem)
          · intro u hmem
            exact FinOp.noConfusion (editTrace_mem env _ _ hmem)
          · intro w hmem
            obtain ⟨u, hu⟩ := mem_map_markWinner _ _ hmem
            exact FinOp.noConfusion hu
          · intro hmem
            obtain ⟨u, hu⟩ := mem_map_markWinner _ _ hmem
            exact FinOp.noConfusion hu
      · refine ⟨(selectWinners sample st.entries gid g.winnerCount).map FinOp.markWinner,
          editTrace env (resolveMessage env g m) ++ [FinOp.purge],
          by simp, ?_, ?_, ?_, ?_, ?_⟩
        · intro hmem
          obtain ⟨u, hu⟩ := mem_map_markWinner _ _ hmem
          exact FinOp.noConfusion hu
        · intro hmem
          rcases List.mem_append.mp hmem with h | h
          · exact FinOp.noConfusion (editTrace_mem env _ _ h)
          · simp at h
        · intro u hmem
          rcases List.mem_append.mp hmem with h | h
          · exact FinOp.noConfusion (editTrace_mem env _ _ h)
          · simp at h
        · intro w hmem
          obtain ⟨u, hu⟩ := mem_map_markWinner _ _ hmem
          exact FinOp.noConfusion hu
        · intro hmem
          obtain ⟨u, hu⟩ := mem_map_markWinner _ _ hmem
          exact FinOp.noConfusion hu
  · intro sample' env' m' ov'
    apply finalize_inactive_noop
    rw [finalize_giveaways_deactivated sample env st gid m ov g hfind]
    exact find_deactivate_none st.giveaways gid

/-- C1 witness: the amended theorem at `demoState` under an environment
where every Discord call succeeds. -/
theorem C1_flip_guards_effects_witness :
    (∃ pre post,
      (finalize_giveaway takeSample ⟨true, true, true, true⟩ demoState 1 (some 5) none).2
        = pre ++ FinOp.setInactive :: post ∧
      FinOp.setInactive ∉ pre ∧ FinOp.setInactive ∉ post ∧
      (∀ u, FinOp.markWinner u ∉ post) ∧
      (∀ w, FinOp.announce w ∉ pre) ∧
      FinOp.purge ∉ pre) ∧
    (∀ sample' env' m' ov',
      finalize_giveaway sample' env'
          (finalize_giveaway takeSample ⟨true, true, true, true⟩ demoState 1 (some 5) none).1
          1 m' ov'
        = ((finalize_giveaway takeSample ⟨true, true, true, true⟩ demoState 1 (some 5) none).1,
           [])) :=
  C1_flip_guards_effects takeSample ⟨true, true, true, true⟩ demoState 1 (some 5) none
    demoGiveaway rfl

end GiveawayBot
